import Mathlib

/-!
Verification of the `is` assertion library (packages v2 and v3) against its
natural-language specification.

The library compares arbitrary runtime Go values (`any`) using reflection.
We model the fragment of the Go value universe that the library's code paths
inspect: nil interfaces, booleans, two integer widths, strings, pointers,
slices, arrays, maps, channels, functions, and two user-defined types that
implement the `Equaler` / `EqualityChecker` hook interfaces.  Reflection
panics (comparing uncomparable types, converting a too-short slice to an
array pointer, calling `Kind()` on the nil `reflect.Type`) are modelled with
`Except GoPanic`.
-/

/-- Runtime types of the modelled Go value universe.  `tEqualer` stands for
the user pointer type `*equaler` implementing `Equaler`; `tEqChecker` for a
user pointer type implementing `EqualityChecker`. -/
inductive GoTy where
  | tInt
  | tInt32
  | tString
  | tBool
  | tPtr (e : GoTy)
  | tSlice (e : GoTy)
  | tArray (n : Nat) (e : GoTy)
  | tMap (k v : GoTy)
  | tChan (e : GoTy)
  | tFunc
  | tEqualer
  | tEqChecker
deriving DecidableEq, Repr

/-- Modelled Go values (`any`).  `vNilIface` is the untyped nil interface.
A `none` payload in `vPtr`, `vSlice`, `vMap`, `vChan` is a typed nil value;
`vChan` carries an identity and a buffered length; `vFunc` carries only
nil-ness (the universe has a single function type); `vEqualer s` /
`vEqChecker s` are non-nil pointers to hook-implementing structs whose
observable state is `s`. -/
inductive GoVal where
  | vNilIface
  | vBool (b : Bool)
  | vInt (n : Int)
  | vInt32 (n : Int)
  | vString (s : String)
  | vPtr (e : GoTy) (p : Option GoVal)
  | vSlice (e : GoTy) (elems : Option (List GoVal))
  | vArray (e : GoTy) (elems : List GoVal)
  | vMap (k v : GoTy) (entries : Option (List (GoVal × GoVal)))
  | vChan (e : GoTy) (ch : Option (Nat × Nat))
  | vFunc (nilF : Bool)
  | vEqualer (s : Nat)
  | vEqChecker (s : Nat)

/-- Reflection / runtime panics that the modelled code can raise. -/
inductive GoPanic where
  | uncomparableType
  | shortSliceConvert
  | nilTypeKind
deriving DecidableEq, Repr

/-- The numeric `reflect.Kind` of a value, with Go's numbering
(`Bool`=1, `Int`=2, `Int32`=5, `Array`=17, `Chan`=18, `Func`=19, `Map`=21,
`Pointer`=22, `Slice`=23, `String`=24); 0 is `Invalid`. -/
def kindNum : GoVal → Nat
  | .vNilIface => 0
  | .vBool _ => 1
  | .vInt _ => 2
  | .vInt32 _ => 5
  | .vString _ => 24
  | .vPtr _ _ => 22
  | .vSlice _ _ => 23
  | .vArray _ _ => 17
  | .vMap _ _ _ => 21
  | .vChan _ _ => 18
  | .vFunc _ => 19
  | .vEqualer _ => 22
  | .vEqChecker _ => 22

/-- Model of `reflect.Value.IsNil` for the nilable kinds of the universe (only ever
consulted after the kind-range guard in `isNil`). -/
def reflectIsNil : GoVal → Bool
  | .vPtr _ p => p.isNone
  | .vSlice _ s => s.isNone
  | .vMap _ _ m => m.isNone
  | .vChan _ c => c.isNone
  | .vFunc n => n
  | _ => false

/-- The Go test `o == nil` on an `any` value: true exactly for the untyped
nil interface. -/
def isNilInterface : GoVal → Bool
  | .vNilIface => true
  | _ => false

/-- Definition `isNil` from workers.go: `o == nil`, or the reflect kind lies in the
range `Chan..Slice` (18..23) and the dynamic value is nil. -/
def isNil (o : GoVal) : Bool :=
  if isNilInterface o then true
  else if 18 ≤ kindNum o ∧ kindNum o ≤ 23 ∧ reflectIsNil o = true then true
  else false

/-- Model of `reflect.TypeOf`: `none` for the untyped nil interface (Go returns the
nil `reflect.Type` there). -/
def tyOf : GoVal → Option GoTy
  | .vNilIface => none
  | .vBool _ => some .tBool
  | .vInt _ => some .tInt
  | .vInt32 _ => some .tInt32
  | .vString _ => some .tString
  | .vPtr e _ => some (.tPtr e)
  | .vSlice e _ => some (.tSlice e)
  | .vArray e xs => some (.tArray xs.length e)
  | .vMap k v _ => some (.tMap k v)
  | .vChan e _ => some (.tChan e)
  | .vFunc _ => some .tFunc
  | .vEqualer _ => some .tEqualer
  | .vEqChecker _ => some .tEqChecker

/-- The `reflect.Kind` of a type (same numbering as `kindNum`). -/
def tyKind : GoTy → Nat
  | .tInt => 2
  | .tInt32 => 5
  | .tString => 24
  | .tBool => 1
  | .tPtr _ => 22
  | .tSlice _ => 23
  | .tArray _ _ => 17
  | .tMap _ _ => 21
  | .tChan _ => 18
  | .tFunc => 19
  | .tEqualer => 22
  | .tEqChecker => 22

/-- Rendering of `fmt`'s `%T` verb for the modelled types. -/
def tyName : GoTy → String
  | .tInt => "int"
  | .tInt32 => "int32"
  | .tString => "string"
  | .tBool => "bool"
  | .tPtr e => "*" ++ tyName e
  | .tSlice e => "[]" ++ tyName e
  | .tArray n e => "[" ++ toString n ++ "]" ++ tyName e
  | .tMap k v => "map[" ++ tyName k ++ "]" ++ tyName v
  | .tChan e => "chan " ++ tyName e
  | .tFunc => "func()"
  | .tEqualer => "*is.equaler"
  | .tEqChecker => "*is.eqChecker"

/-- Definition `objectTypeName` from workers.go: `fmt.Sprintf("%T", o)`. -/
def objectTypeName (o : GoVal) : String :=
  match tyOf o with
  | none => "<nil>"
  | some t => tyName t

/-- Definition `objectTypeNames` from workers.go: the `%T` of a nil `[]any` for an
empty variadic list, the single name for one element, otherwise the names
joined with commas. -/
def objectTypeNames : List GoVal → String
  | [] => "[]interface \x7b\x7d"
  | [x] => objectTypeName x
  | x :: rest => objectTypeName x ++ String.join (rest.map (fun e => "," ++ objectTypeName e))

mutual
/-- Go `==` on the modelled values, used by `reflect.DeepEqual` to look up
map keys (map keys are comparable types; the universe's keys are scalars,
where `==` is structural). -/
def beqVal : GoVal → GoVal → Bool
  | .vNilIface, .vNilIface => true
  | .vBool x, .vBool y => x == y
  | .vInt n, .vInt m => n == m
  | .vInt32 n, .vInt32 m => n == m
  | .vString s, .vString t => s == t
  | .vPtr e p, .vPtr f q =>
      decide (e = f) && (match p, q with
        | none, none => true
        | some x, some y => beqVal x y
        | _, _ => false)
  | .vSlice e s, .vSlice f t =>
      decide (e = f) && (match s, t with
        | none, none => true
        | some xs, some ys => beqList xs ys
        | _, _ => false)
  | .vArray e xs, .vArray f ys => decide (e = f) && beqList xs ys
  | .vMap k v en, .vMap k' v' en' =>
      decide (k = k') && decide (v = v') && (match en, en' with
        | none, none => true
        | some xs, some ys => beqPairs xs ys
        | _, _ => false)
  | .vChan e c, .vChan f d =>
      decide (e = f) && (match c, d with
        | none, none => true
        | some x, some y => x.1 == y.1
        | _, _ => false)
  | .vFunc n, .vFunc m => n == m
  | .vEqualer s, .vEqualer t => s == t
  | .vEqChecker s, .vEqChecker t => s == t
  | _, _ => false

def beqList : List GoVal → List GoVal → Bool
  | [], [] => true
  | x :: xs, y :: ys => beqVal x y && beqList xs ys
  | _, _ => false

def beqPairs : List (GoVal × GoVal) → List (GoVal × GoVal) → Bool
  | [], [] => true
  | (k, v) :: xs, (k', v') :: ys => beqVal k k' && beqVal v v' && beqPairs xs ys
  | _, _ => false
end

/-- Map-index lookup as `reflect.DeepEqual` performs it: find the entry
whose key equals `k` under Go `==`. -/
def mapIndex (k : GoVal) : List (GoVal × GoVal) → Option GoVal
  | [] => none
  | (k', v) :: rest => if beqVal k k' then some v else mapIndex k rest

mutual
/-- Model of `reflect.DeepEqual` on the modelled universe.  Values of different
dynamic types are never deeply equal; nil and non-nil slices/maps are
distinguished; maps are compared by equal length plus per-key lookup of a
deeply equal value; functions are deeply equal only when both are nil;
channels fall back to `==` (identity); pointers compare pointees. -/
def deepEqual : GoVal → GoVal → Bool
  | .vNilIface, .vNilIface => true
  | .vNilIface, _ => false
  | _, .vNilIface => false
  | .vBool x, .vBool y => x == y
  | .vInt n, .vInt m => n == m
  | .vInt32 n, .vInt32 m => n == m
  | .vString s, .vString t => s == t
  | .vPtr e p, .vPtr f q =>
      decide (e = f) && (match p, q with
        | none, none => true
        | some x, some y => deepEqual x y
        | _, _ => false)
  | .vSlice e s, .vSlice f t =>
      decide (e = f) && (match s, t with
        | none, none => true
        | some xs, some ys => deepEqualList xs ys
        | _, _ => false)
  | .vArray e xs, .vArray f ys => decide (e = f) && deepEqualList xs ys
  | .vMap k v en, .vMap k' v' en' =>
      decide (k = k') && decide (v = v') && (match en, en' with
        | none, none => true
        | some xs, some ys => xs.length == ys.length && deepEqualEntries xs ys
        | _, _ => false)
  | .vChan e c, .vChan f d =>
      decide (e = f) && (match c, d with
        | none, none => true
        | some x, some y => x.1 == y.1
        | _, _ => false)
  | .vFunc n, .vFunc m => n && m
  | .vEqualer s, .vEqualer t => s == t
  | .vEqChecker s, .vEqChecker t => s == t
  | _, _ => false

def deepEqualList : List GoVal → List GoVal → Bool
  | [], [] => true
  | x :: xs, y :: ys => deepEqual x y && deepEqualList xs ys
  | _, _ => false

def deepEqualEntries : List (GoVal × GoVal) → List (GoVal × GoVal) → Bool
  | [], _ => true
  | (k, v) :: rest, ys =>
      (match mapIndex k ys with
       | some v2 => deepEqual v v2
       | none => false) && deepEqualEntries rest ys
end

/-- Model of `reflect.Zero(t)`: the zero value of a type.  (`tEqualer`/`tEqChecker`
are pointer types whose zero is a nil pointer; such nils lie outside the
modelled universe and this branch is unreachable from `isZero`, which
handles those values in its pointer case.) -/
def zeroVal : GoTy → GoVal
  | .tInt => .vInt 0
  | .tInt32 => .vInt32 0
  | .tString => .vString ""
  | .tBool => .vBool false
  | .tPtr e => .vPtr e none
  | .tSlice e => .vSlice e none
  | .tArray n e => .vArray e (List.replicate n (zeroVal e))
  | .tMap k v => .vMap k v none
  | .tChan e => .vChan e none
  | .tFunc => .vFunc true
  | .tEqualer => .vEqualer 0
  | .tEqChecker => .vEqChecker 0

/-- Model of `reflect.Value.Len` for slice/array/map/chan values (`len` of a nil
slice, map or channel is 0). -/
def lenOf : GoVal → Nat
  | .vSlice _ none => 0
  | .vSlice _ (some xs) => xs.length
  | .vArray _ xs => xs.length
  | .vMap _ _ none => 0
  | .vMap _ _ (some xs) => xs.length
  | .vChan _ none => 0
  | .vChan _ (some c) => c.2
  | _ => 0

/-- Definition `isZero` from workers.go: nil interface is zero; a pointer is zero iff
it is deeply equal to a freshly allocated pointer to a zeroed pointee
(`reflect.New(elem)`), so a nil pointer is not zero; slice/array/map/chan
are zero iff their length is 0; every other kind is zero iff deeply equal
to `reflect.Zero` of its type.  (`vEqualer`/`vEqChecker` are pointer kinds:
their `reflect.New` pointee is a zeroed hook struct, state 0.) -/
def isZero (o : GoVal) : Bool :=
  if isNilInterface o then true
  else match o with
  | .vPtr e _ => deepEqual o (.vPtr e (some (zeroVal e)))
  | .vEqualer _ => deepEqual o (.vEqualer 0)
  | .vEqChecker _ => deepEqual o (.vEqChecker 0)
  | .vSlice _ _ => lenOf o == 0
  | .vArray _ _ => lenOf o == 0
  | .vMap _ _ _ => lenOf o == 0
  | .vChan _ _ => lenOf o == 0
  | _ =>
    match tyOf o with
    | some t => deepEqual o (zeroVal t)
    | none => false

/-- Model of `reflect.Type.ConvertibleTo` restricted to the modelled universe:
identical types, numeric-to-numeric, and (since Go 1.17/1.20) a slice to a
pointer-to-array or array of the same element type.  The v3 wrapper
`convertibleTo` guards this call with `recover`, which never fires for the
modelled types, so both packages compute this predicate. -/
def convertibleTo (src dst : GoTy) : Bool :=
  if src = dst then true
  else match src, dst with
  | .tInt, .tInt32 => true
  | .tInt32, .tInt => true
  | .tSlice e, .tPtr (.tArray _ f) => decide (e = f)
  | .tSlice e, .tArray _ f => decide (e = f)
  | _, _ => false

/-- Wrap an integer into the signed 32-bit range (Go conversion to int32). -/
def wrap32 (n : Int) : Int :=
  (n + 2 ^ 31) % 2 ^ 32 - 2 ^ 31

/-- Model of `reflect.Value.Convert` on the modelled universe; `none` is the runtime
panic Go raises when converting a slice shorter than the target array
length (`reflect: cannot convert slice with length m to ...`).  Converting
a nil slice yields a nil array pointer only for length-0 arrays. -/
def convert (v : GoVal) (dst : GoTy) : Option GoVal :=
  match tyOf v with
  | none => none
  | some src =>
    if src = dst then some v
    else match v, dst with
    | .vInt n, .tInt32 => some (.vInt32 (wrap32 n))
    | .vInt32 n, .tInt => some (.vInt n)
    | .vSlice e s, .tPtr (.tArray n f) =>
        if e = f then
          match s with
          | none => if n = 0 then some (.vPtr (.tArray n f) none) else none
          | some xs =>
              if n ≤ xs.length then some (.vPtr (.tArray n f) (some (.vArray f (xs.take n))))
              else none
        else none
    | .vSlice e s, .tArray n f =>
        if e = f then
          let xs := s.getD []
          if n ≤ xs.length then some (.vArray f (xs.take n)) else none
        else none
    | _, _ => none

/-- The Go interface comparison `a == b` that `isEqual` performs when both
operands are nil-like (the only place either package compares interfaces):
untyped nil equals only untyped nil; typed nils of different dynamic types
are unequal; typed nils of the same comparable type (pointers, channels)
are equal; comparing two nils of the same uncomparable type (slice, map,
function) is a runtime panic. -/
def nilIfaceEq : GoVal → GoVal → Except GoPanic Bool
  | .vNilIface, .vNilIface => .ok true
  | .vNilIface, _ => .ok false
  | _, .vNilIface => .ok false
  | .vPtr e none, .vPtr f none => .ok (decide (e = f))
  | .vChan e none, .vChan f none => .ok (decide (e = f))
  | .vSlice e none, .vSlice f none =>
      if e = f then .error .uncomparableType else .ok false
  | .vMap k v none, .vMap k' v' none =>
      if k = k' ∧ v = v' then .error .uncomparableType else .ok false
  | .vFunc true, .vFunc true => .error .uncomparableType
  | _, _ => .ok false

/-- Positional arguments handed to a failure report (`fmt` verbs are not
rendered; the values are kept as passed). -/
inductive FArg where
  | str (s : String)
  | val (v : GoVal)
  | vals (vs : List GoVal)
  | num (n : Int)
  | dur (n : Nat)

/-- One failure handed to the test handle: the final format string, its
arguments, and whether it was fatal (`Fatalf`) or non-fatal (`Errorf`). -/
structure FailEvent where
  fmt : String
  args : List FArg
  fatal : Bool

namespace V2

/-- The v2 `Is` context: test handle (as an opaque id), strictness,
bound failure message template/arguments, and message separator. -/
structure Is where
  tb : Nat
  strict : Bool
  failFormat : String
  failArgs : List FArg
  msgSep : String

/-- v2 `New`: a fresh context is strict with no bound message. -/
def New (tb : Nat) : Is :=
  { tb := tb, strict := true, failFormat := "", failArgs := [], msgSep := "" }

/-- v2 method `New`: copy the context, replacing the testing object. -/
def Is.New (is : Is) (tb : Nat) : Is :=
  { is with tb := tb }

/-- v2 `Msg`: copy with the message bound to `format`/`args`. -/
def Is.Msg (is : Is) (format : String) (args : List FArg) : Is :=
  { is with failFormat := format, failArgs := args }

/-- v2 `MsgSep`: copy with the separator overridden. -/
def Is.MsgSep (is : Is) (sep : String) : Is :=
  { is with msgSep := sep }

/-- v2 `getMsgSep`: the configured separator, defaulting to `" - "`. -/
def Is.getMsgSep (is : Is) : String :=
  if is.msgSep ≠ "" then is.msgSep else " - "

/-- v2 `AddMsg`: like `Msg` when no message is bound; otherwise append
`format` behind the old template (joined by the separator) and append the
arguments. -/
def Is.AddMsg (is : Is) (format : String) (args : List FArg) : Is :=
  if is.failFormat = "" then is.Msg format args
  else { is with failFormat := is.failFormat ++ is.getMsgSep ++ format,
                 failArgs := is.failArgs ++ args }

/-- v2 `PrependMsg`: like `AddMsg` with the new message in front. -/
def Is.PrependMsg (is : Is) (format : String) (args : List FArg) : Is :=
  if is.failFormat = "" then is.Msg format args
  else { is with failFormat := format ++ is.getMsgSep ++ is.failFormat,
                 failArgs := args ++ is.failArgs }

/-- v2 `Lax`: copy with strict mode off. -/
def Is.Lax (is : Is) : Is :=
  { is with strict := false }

/-- v2 `Strict`: copy with strict mode on. -/
def Is.Strict (is : Is) : Is :=
  { is with strict := true }

/-- v2 `failDefault`: build the failure event, appending the bound message
template (joined by the separator) and its arguments when one is set;
fatal exactly when the context is strict. -/
def failDefault (is : Is) (format : String) (args : List FArg) : FailEvent :=
  if is.failFormat ≠ "" then
    { fmt := format ++ is.getMsgSep ++ is.failFormat,
      args := args ++ is.failArgs, fatal := is.strict }
  else
    { fmt := format, args := args, fatal := is.strict }

/-- v2 `isEqual` (workers.go lines 63-91), parametrised by the behaviour
`eqH` of the user-defined `Equaler.Equal` hook: nil-likeness first (with
the raw interface comparison `a == b` when both are nil-like), then the
`Equaler` hook of `a` alone, then `reflect.DeepEqual`, then conversion of
`b` to `a`'s type followed by `reflect.DeepEqual`. -/
def isEqual (eqH : Nat → GoVal → Bool) (a b : GoVal) : Except GoPanic Bool :=
  if isNil a || isNil b then
    if isNil a && !isNil b then .ok false
    else if !isNil a && isNil b then .ok false
    else nilIfaceEq a b
  else match a with
  | .vEqualer s => .ok (eqH s b)
  | _ =>
    if deepEqual a b then .ok true
    else match tyOf b, tyOf a with
    | some bt, some at' =>
        if convertibleTo bt at' then
          match convert b at' with
          | some b' => .ok (deepEqual a b')
          | none => .error .shortSliceConvert
        else .ok false
    | _, _ => .ok false

/-- Loop body shared by v2 `OneOf`/`NotOneOf`: `result` is whether some
candidate, tried in order, compares equal (first match short-circuits). -/
def oneOfLoop (eqH : Nat → GoVal → Bool) (a : GoVal) : List GoVal → Except GoPanic Bool
  | [] => .ok false
  | o :: rest => do
      let r ← isEqual eqH a o
      if r then .ok true else oneOfLoop eqH a rest

/-- v2 `OneOf`: fail (returning false) unless `a` equals one of `b`. -/
def OneOf (is : Is) (eqH : Nat → GoVal → Bool) (a : GoVal) (b : List GoVal) :
    Except GoPanic (Bool × List FailEvent) := do
  let result ← oneOfLoop eqH a b
  if !result then
    .ok (false, [failDefault is
      "expected object \x27%s\x27 to be equal to one of \x27%s\x27, but got: %#v and %#v"
      [.str (objectTypeName a), .str (objectTypeNames b), .val a, .vals b]])
  else .ok (true, [])

/-- v2 `NotOneOf`: fail (returning false) if `a` equals one of `b`. -/
def NotOneOf (is : Is) (eqH : Nat → GoVal → Bool) (a : GoVal) (b : List GoVal) :
    Except GoPanic (Bool × List FailEvent) := do
  let result ← oneOfLoop eqH a b
  if result then
    .ok (false, [failDefault is
      "expected object \x27%s\x27 not to be equal to one of \x27%s\x27, but got: %v and %v"
      [.str (objectTypeName a), .str (objectTypeNames b), .val a, .vals b]])
  else .ok (true, [])

/-- v2 `isString`: `reflect.TypeOf(a).Kind() == reflect.String`.  When `a`
is the untyped nil interface, `reflect.TypeOf` returns the nil `Type` and
the `Kind()` call is a nil-pointer-dereference panic. -/
def isString (a : GoVal) : Except GoPanic Bool :=
  match tyOf a with
  | none => .error .nilTypeKind
  | some t => .ok (tyKind t == 24)

/-- v2 `isSlice`: `reflect.TypeOf(a).Kind() == reflect.Slice`, with the
same nil-`Type` panic as `isString`. -/
def isSlice (a : GoVal) : Except GoPanic Bool :=
  match tyOf a with
  | none => .error .nilTypeKind
  | some t => .ok (tyKind t == 23)

/-- Whether `sub` is a prefix of `s` (character lists). -/
def prefixMatch : List Char → List Char → Bool
  | [], _ => true
  | _ :: _, [] => false
  | c :: cs, d :: ds => c == d && prefixMatch cs ds

/-- Substring search over character lists, matching at any offset. -/
def subSearch (sub : List Char) : List Char → Bool
  | [] => sub.isEmpty
  | c :: rest => prefixMatch sub (c :: rest) || subSearch sub rest

/-- Model of `strings.Contains s sub`. -/
def goStrContains (s sub : String) : Bool :=
  subSearch sub.data s.data

/-- Model of `reflect.ValueOf(a).String()` for values of string kind (the only
string-kind values in the universe are `vString`). -/
def strVal : GoVal → String
  | .vString s => s
  | _ => ""

/-- The element list over which v2 `Contains` iterates a slice container
(a nil slice has length 0). -/
def sliceElems : GoVal → List GoVal
  | .vSlice _ (some xs) => xs
  | _ => []

/-- The element-membership loop of v2 `Contains`: try
`isEqual(element, b)` on each element in order. -/
def containsLoop (eqH : Nat → GoVal → Bool) (b : GoVal) : List GoVal → Except GoPanic Bool
  | [] => .ok false
  | x :: rest => do
      let r ← isEqual eqH x b
      if r then .ok true else containsLoop eqH b rest

/-- v2 `Contains` (workers.go lines 334-356): substring check when both
operands are of string kind, element membership when the container is of
slice kind, otherwise an argument-type failure.  The `isString`/`isSlice`
kind probes panic on the untyped nil interface. -/
def Contains (is : Is) (eqH : Nat → GoVal → Bool) (a b : GoVal) :
    Except GoPanic (Bool × List FailEvent) := do
  let sa ← isString a
  let sab ← if sa then isString b else pure false
  if sab then
    if goStrContains (strVal a) (strVal b) then .ok (true, [])
    else .ok (false, [failDefault is "%#v expected to contain %#v" [.val a, .val b]])
  else
    let sl ← isSlice a
    if sl then
      let r ← containsLoop eqH b (sliceElems a)
      if r then .ok (true, [])
      else .ok (false, [failDefault is "%#v expected to contain %#v" [.val a, .val b]])
    else
      .ok (false, [failDefault is "unexpected argument types %T and %T" [.val a, .val b]])

/-- Outcome of the `WaitForTrue` polling loop, carrying how many times the
predicate was invoked. -/
inductive WaitResult where
  | timedOut (calls : Nat)
  | succeeded (calls : Nat)
deriving DecidableEq, Repr

/-- Number of predicate invocations recorded in a `WaitResult`. -/
def WaitResult.calls : WaitResult → Nat
  | .timedOut c => c
  | .succeeded c => c

/-- The `WaitForTrue` loop (identical in v2 and v3): at poll `i` the
`select` takes the `<-after` branch when the timeout channel is already
ready (`ready i`), otherwise the `default` branch invokes the predicate
and, on false, sleeps and polls again.  `ready`/`f` abstract the timing of
the timeout channel and the predicate's answers; `fuel` bounds the
unrolling (`none` = undetermined within `fuel` polls). -/
def waitLoop (ready f : Nat → Bool) : Nat → Nat → Nat → Option WaitResult
  | 0, _, _ => none
  | fuel + 1, i, calls =>
    if ready i then some (.timedOut calls)
    else if f i then some (.succeeded (calls + 1))
    else waitLoop ready f fuel (i + 1) (calls + 1)

/-- v2/v3 `WaitForTrue`: run the polling loop; on the timeout branch,
dispatch exactly one failure naming the timeout, then return; on predicate
success, return with no failure. -/
def WaitForTrue (is : Is) (timeout : Nat) (ready f : Nat → Bool) (fuel : Nat) :
    Option (WaitResult × List FailEvent) :=
  (waitLoop ready f fuel 0 0).map fun r =>
    match r with
    | .timedOut _ =>
        (r, [failDefault is "function did not return true within the timeout of %v"
              [.dur timeout]])
    | .succeeded _ => (r, [])

end V2

namespace V3

/-- The v3 `asserter`: test handle (opaque id), strictness, bound failure
message, and the failure flag used by the `Lax` scope. -/
structure Asserter where
  tb : Nat
  strict : Bool
  failFormat : String
  failArgs : List FArg
  failed : Bool

/-- v3 `isEqual` (workers.go lines 1026-1059): like v2 but with a second
hook interface `EqualityChecker` consulted after `Equaler`, and the
conversion guarded by the recovering `convertibleTo` wrapper (whose
`recover` never fires for the modelled types). -/
def isEqual (eqH icH : Nat → GoVal → Bool) (a b : GoVal) : Except GoPanic Bool :=
  if isNil a || isNil b then
    if isNil a && !isNil b then .ok false
    else if !isNil a && isNil b then .ok false
    else nilIfaceEq a b
  else match a with
  | .vEqualer s => .ok (eqH s b)
  | .vEqChecker s => .ok (icH s b)
  | _ =>
    if deepEqual a b then .ok true
    else match tyOf b, tyOf a with
    | some bt, some at' =>
        if convertibleTo bt at' then
          match convert b at' with
          | some b' => .ok (deepEqual a b')
          | none => .error .shortSliceConvert
        else .ok false
    | _, _ => .ok false

/-- v3 `failDefault` (workers.go lines 1066-1081): mark the asserter
failed, append the bound message (fixed `" - "` separator) and its
arguments, and dispatch fatally iff strict. -/
def failDefault (a : Asserter) (format : String) (args : List FArg) :
    Asserter × FailEvent :=
  ({ a with failed := true },
   if a.failFormat ≠ "" then
     { fmt := format ++ " - " ++ a.failFormat,
       args := args ++ a.failArgs, fatal := a.strict }
   else
     { fmt := format, args := args, fatal := a.strict })

/-- One assertion inside a `Lax` callback, abstracted to its outcome:
`none` passes; `some (format, args)` fails, invoking `failDefault` with
that format and those arguments on the scope's asserter. -/
def runChecks (a : Asserter) : List (Option (String × List FArg)) →
    Asserter × List FailEvent
  | [] => (a, [])
  | none :: rest => runChecks a rest
  | some (f, args) :: rest =>
      let (a', ev) := failDefault a f args
      let (a'', evs) := runChecks a' rest
      (a'', ev :: evs)

/-- The child asserter built by v3 `Lax` (workers.go lines 933-947):
same handle and message, strict off, failure flag fresh. -/
def laxChild (self : Asserter) : Asserter :=
  { tb := self.tb, strict := false, failFormat := self.failFormat,
    failArgs := self.failArgs, failed := false }

/-- v3 `Lax`: run the callback's checks against the child; if the child
recorded any failure, dispatch one aggregate failure on the parent. -/
def Lax (self : Asserter) (checks : List (Option (String × List FArg))) :
    Asserter × List FailEvent :=
  let (child, evs) := runChecks (laxChild self) checks
  if child.failed then
    let (self', ev) := failDefault self "at least one assertion in the Lax function failed" []
    (self', evs ++ [ev])
  else (self, evs)

end V3

/-- Comparable types among the nil-like kinds: slices, maps and functions
are uncomparable (Go panics when `==` reaches them); pointers and channels
compare. -/
def comparableNilTy : GoTy → Bool
  | .tSlice _ => false
  | .tMap _ _ => false
  | .tFunc => false
  | _ => true

/-- Specification-side characterisation of `isEqual` on nil-like pairs:
equal exactly when both are the untyped nil, or both are typed nils of the
same dynamic type — panicking when that shared type is uncomparable. -/
def nilEqSpec (a b : GoVal) : Except GoPanic Bool :=
  match tyOf a, tyOf b with
  | none, none => .ok true
  | some ta, some tb =>
      if ta = tb then
        if comparableNilTy ta then .ok true else .error .uncomparableType
      else .ok false
  | _, _ => .ok false

/-- Auxiliary: the only nil-like values are the untyped nil, nil pointers,
nil slices, nil maps, nil channels and nil functions. -/
theorem isNil_shapes (a : GoVal) (h : isNil a = true) :
    a = .vNilIface ∨ (∃ e, a = .vPtr e none) ∨ (∃ e, a = .vSlice e none) ∨
    (∃ k v, a = .vMap k v none) ∨ (∃ e, a = .vChan e none) ∨ a = .vFunc true := by
  cases a <;> simp_all [isNil, isNilInterface, kindNum, reflectIsNil, Option.isNone_iff_eq_none]

/-- Auxiliary: on nil-like operands, the interface comparison performed by
`isEqual` matches the type-directed characterisation `nilEqSpec`. -/
theorem nilIfaceEq_spec (a b : GoVal) (ha : isNil a = true) (hb : isNil b = true) :
    nilIfaceEq a b = nilEqSpec a b := by
  rcases isNil_shapes a ha with rfl | ⟨e, rfl⟩ | ⟨e, rfl⟩ | ⟨k, v, rfl⟩ | ⟨e, rfl⟩ | rfl <;>
    rcases isNil_shapes b hb with rfl | ⟨f, rfl⟩ | ⟨f, rfl⟩ | ⟨k', v', rfl⟩ | ⟨f, rfl⟩ | rfl <;>
    simp [nilIfaceEq, nilEqSpec, tyOf, comparableNilTy] <;>
    (try split_ifs <;> simp_all)

/-- C1 (counterexample): the claim "for nil-like pairs, isEqual is true iff
both operands are nil-like, and never faults" is false: two typed nil
pointers of different types are both nil-like yet compare unequal, and two
nil slices of the same type make `isEqual` panic. -/
theorem isEqual_nilLike_counterexample :
    isNil (GoVal.vPtr .tInt none) = true ∧ isNil (GoVal.vPtr .tBool none) = true ∧
    V3.isEqual (fun _ _ => false) (fun _ _ => false) (.vPtr .tInt none) (.vPtr .tBool none) = .ok false ∧
    V2.isEqual (fun _ _ => false) (.vPtr .tInt none) (.vPtr .tBool none) = .ok false ∧
    isNil (GoVal.vSlice .tInt none) = true ∧
    V3.isEqual (fun _ _ => false) (fun _ _ => false) (.vSlice .tInt none) (.vSlice .tInt none) = .error .uncomparableType :=
  ⟨rfl, rfl, rfl, rfl, rfl, rfl⟩

/-- C1 (amended): when at least one operand is nil-like, `isEqual` (both
packages) returns false if exactly one operand is nil-like; when both are
nil-like it returns the Go interface comparison `a == b` — true exactly
when both are the untyped nil or typed nils of the same dynamic type,
panicking when that shared type is uncomparable (slice, map, function). -/
theorem isEqual_nilLike_amended (eqH icH : Nat → GoVal → Bool) (a b : GoVal)
    (h : isNil a = true ∨ isNil b = true) :
    V3.isEqual eqH icH a b = (if isNil a && isNil b then nilEqSpec a b else .ok false) ∧
    V2.isEqual eqH a b = (if isNil a && isNil b then nilEqSpec a b else .ok false) := by
  cases ha : isNil a with
  | false =>
    cases hb : isNil b with
    | false => rcases h with h | h <;> simp_all
    | true => simp [V3.isEqual, V2.isEqual, ha, hb]
  | true =>
    cases hb : isNil b with
    | false => simp [V3.isEqual, V2.isEqual, ha, hb]
    | true => simp [V3.isEqual, V2.isEqual, ha, hb, nilIfaceEq_spec a b ha hb]

/-- C1 (witness): the amended theorem applied to the untyped nil pair. -/
theorem isEqual_nilLike_amended_witness :
    (isNil GoVal.vNilIface = true ∨ isNil GoVal.vNilIface = true) ∧
    (V3.isEqual (fun _ _ => false) (fun _ _ => false) GoVal.vNilIface GoVal.vNilIface =
        (if isNil GoVal.vNilIface && isNil GoVal.vNilIface
         then nilEqSpec GoVal.vNilIface GoVal.vNilIface else .ok false) ∧
     V2.isEqual (fun _ _ => false) GoVal.vNilIface GoVal.vNilIface =
        (if isNil GoVal.vNilIface && isNil GoVal.vNilIface
         then nilEqSpec GoVal.vNilIface GoVal.vNilIface else .ok false)) :=
  ⟨Or.inl rfl,
   isEqual_nilLike_amended (fun _ _ => false) (fun _ _ => false)
     GoVal.vNilIface GoVal.vNilIface (Or.inl rfl)⟩

/-- C2: for non-nil-like operands whose left side implements an equality
hook, `isEqual` returns the hook's verdict on `b` verbatim — for every hook
behaviour and every right operand (hooked or not), so the hook takes
precedence over deep equality and conversion and only `a`'s hook is
consulted. -/
theorem isEqual_hook_precedence (eqH icH : Nat → GoVal → Bool) (s : Nat) (b : GoVal)
    (hb : isNil b = false) :
    V3.isEqual eqH icH (.vEqualer s) b = .ok (eqH s b) ∧
    V3.isEqual eqH icH (.vEqChecker s) b = .ok (icH s b) ∧
    V2.isEqual eqH (.vEqualer s) b = .ok (eqH s b) := by
  have ha : isNil (GoVal.vEqualer s) = false := rfl
  have ha' : isNil (GoVal.vEqChecker s) = false := rfl
  refine ⟨?_, ?_, ?_⟩ <;> simp [V3.isEqual, V2.isEqual, ha, ha', hb]

/-- C2 (witness): a hook that always answers true decides the comparison
against a hooked right operand whose own hook would answer false. -/
theorem isEqual_hook_precedence_witness :
    isNil (GoVal.vEqualer 2) = false ∧
    (V3.isEqual (fun _ _ => true) (fun _ _ => false) (.vEqualer 1) (.vEqualer 2) = .ok true ∧
     V3.isEqual (fun _ _ => true) (fun _ _ => false) (.vEqChecker 1) (.vEqualer 2) = .ok false ∧
     V2.isEqual (fun _ _ => true) (.vEqualer 1) (.vEqualer 2) = .ok true) :=
  ⟨rfl, isEqual_hook_precedence (fun _ _ => true) (fun _ _ => false) 1 (.vEqualer 2) rfl⟩

/-- C3 (code bug evaluation): comparing a non-nil pointer-to-array with a
shorter non-nil slice passes the `ConvertibleTo` guard (slices convert to
array pointers) but panics inside `reflect.Value.Convert`, so the
conversion fallback of `isEqual` does propagate a fault instead of
returning false. -/
theorem isEqual_convert_panic_eval :
    isNil (GoVal.vPtr (.tArray 1 .tInt) (some (.vArray .tInt [.vInt 5]))) = false ∧
    isNil (GoVal.vSlice .tInt (some [])) = false ∧
    V3.isEqual (fun _ _ => false) (fun _ _ => false)
      (.vPtr (.tArray 1 .tInt) (some (.vArray .tInt [.vInt 5]))) (.vSlice .tInt (some []))
      = .error .shortSliceConvert ∧
    V2.isEqual (fun _ _ => false)
      (.vPtr (.tArray 1 .tInt) (some (.vArray .tInt [.vInt 5]))) (.vSlice .tInt (some []))
      = .error .shortSliceConvert :=
  ⟨rfl, rfl, rfl, rfl⟩

/-- C4: message composition round-trip — `AddMsg` on an unbound context is
exactly `Msg` (as is `PrependMsg`); on a bound context `AddMsg` yields
template `old ++ sep ++ new` with arguments `oldArgs ++ args`, `PrependMsg`
the mirror image; the separator defaults to `" - "` and is overridden by a
non-empty `MsgSep`. -/
theorem addMsg_prependMsg_roundtrip (is : V2.Is) (format : String) (args : List FArg) :
    (is.failFormat = "" →
       is.AddMsg format args = is.Msg format args ∧
       is.PrependMsg format args = is.Msg format args) ∧
    (is.failFormat ≠ "" →
       (is.AddMsg format args).failFormat = is.failFormat ++ is.getMsgSep ++ format ∧
       (is.AddMsg format args).failArgs = is.failArgs ++ args ∧
       (is.PrependMsg format args).failFormat = format ++ is.getMsgSep ++ is.failFormat ∧
       (is.PrependMsg format args).failArgs = args ++ is.failArgs) ∧
    (is.msgSep = "" → is.getMsgSep = " - ") ∧
    (is.msgSep ≠ "" → is.getMsgSep = is.msgSep) := by
  refine ⟨fun h => ⟨?_, ?_⟩, fun h => ⟨?_, ?_, ?_, ?_⟩, fun h => ?_, fun h => ?_⟩ <;>
    simp [V2.Is.AddMsg, V2.Is.PrependMsg, V2.Is.getMsgSep, h]

/-- C4 (witness): the specification's example — two appends then a prepend
on a fresh context, with the default separator. -/
theorem addMsg_prependMsg_roundtrip_witness :
    (((V2.New 0).AddMsg "a %s" [.str "x"]).AddMsg "b %s" [.str "y"]).failFormat = "a %s - b %s" ∧
    (((V2.New 0).AddMsg "a %s" [.str "x"]).AddMsg "b %s" [.str "y"]).failArgs = [.str "x", .str "y"] ∧
    ((((V2.New 0).AddMsg "a %s" [.str "x"]).AddMsg "b %s" [.str "y"]).PrependMsg "#%d msg" [.num 1]).failFormat
      = "#%d msg - a %s - b %s" ∧
    ((((V2.New 0).AddMsg "a %s" [.str "x"]).AddMsg "b %s" [.str "y"]).PrependMsg "#%d msg" [.num 1]).failArgs
      = [.num 1, .str "x", .str "y"] := by
  have h1 := addMsg_prependMsg_roundtrip ((V2.New 0).AddMsg "a %s" [FArg.str "x"]) "b %s" [FArg.str "y"]
  have h2 := addMsg_prependMsg_roundtrip
    (((V2.New 0).AddMsg "a %s" [FArg.str "x"]).AddMsg "b %s" [FArg.str "y"]) "#%d msg" [FArg.num 1]
  have ha := h1.2.1 (by decide)
  have hp := h2.2.1 (by decide)
  exact ⟨(ha.1).trans (by decide), (ha.2.1).trans (by rfl),
    (hp.2.2.1).trans (by decide), (hp.2.2.2).trans (by rfl)⟩

/-- C5: every v2 mutator returns a context whose untouched observable
fields equal the original's (the originals are values, never written), a
fresh context is strict with no message, and `Lax` flips strictness only on
the derived copy. -/
theorem mutators_return_new_context (is : V2.Is) (tb' : Nat) (format sep : String) (args : List FArg) :
    V2.New tb' = { tb := tb', strict := true, failFormat := "", failArgs := [], msgSep := "" } ∧
    is.Lax.strict = false ∧ is.Lax.tb = is.tb ∧ is.Lax.failFormat = is.failFormat ∧
      is.Lax.failArgs = is.failArgs ∧ is.Lax.msgSep = is.msgSep ∧
    is.Strict.strict = true ∧ is.Strict.tb = is.tb ∧ is.Strict.failFormat = is.failFormat ∧
      is.Strict.failArgs = is.failArgs ∧ is.Strict.msgSep = is.msgSep ∧
    (is.Msg format args).tb = is.tb ∧ (is.Msg format args).strict = is.strict ∧
      (is.Msg format args).msgSep = is.msgSep ∧ (is.Msg format args).failFormat = format ∧
      (is.Msg format args).failArgs = args ∧
    (is.MsgSep sep).tb = is.tb ∧ (is.MsgSep sep).strict = is.strict ∧
      (is.MsgSep sep).failFormat = is.failFormat ∧ (is.MsgSep sep).failArgs = is.failArgs ∧
      (is.MsgSep sep).msgSep = sep ∧
    (is.AddMsg format args).tb = is.tb ∧ (is.AddMsg format args).strict = is.strict ∧
      (is.AddMsg format args).msgSep = is.msgSep ∧
    (is.PrependMsg format args).tb = is.tb ∧ (is.PrependMsg format args).strict = is.strict ∧
      (is.PrependMsg format args).msgSep = is.msgSep ∧
    (is.New tb').tb = tb' ∧ (is.New tb').strict = is.strict ∧
      (is.New tb').failFormat = is.failFormat ∧ (is.New tb').failArgs = is.failArgs ∧
      (is.New tb').msgSep = is.msgSep := by
  refine ⟨rfl, rfl, rfl, rfl, rfl, rfl, rfl, rfl, rfl, rfl, rfl, rfl, rfl, rfl, rfl, rfl,
    rfl, rfl, rfl, rfl, rfl, ?_, ?_, ?_, ?_, ?_, ?_, rfl, rfl, rfl, rfl, rfl⟩ <;>
    simp [V2.Is.AddMsg, V2.Is.PrependMsg, V2.Is.Msg, apply_ite]

/-- C6 (counterexample): a schedule on which the timeout channel is already
ready at the first poll (possible with an effectively zero timeout, since
`time.After(0)` fires immediately and `select` then takes the `<-after`
case): the predicate is never invoked and a failure is reported even though
the predicate would have returned true on its first invocation. -/
theorem waitForTrue_ready_first_counterexample :
    V2.WaitForTrue (V2.New 0) 0 (fun _ => true) (fun _ => true) 1 =
      some (.timedOut 0, [V2.failDefault (V2.New 0)
        "function did not return true within the timeout of %v" [.dur 0]]) ∧
    (V2.WaitForTrue (V2.New 0) 0 (fun _ => true) (fun _ => true) 1).map (fun p => p.1.calls) = some 0 :=
  ⟨rfl, rfl⟩

/-- Auxiliary: the polling loop never decreases the call counter, and a
success records at least one call beyond the starting count. -/
theorem waitLoop_calls (ready f : Nat → Bool) :
    ∀ fuel i calls r, V2.waitLoop ready f fuel i calls = some r →
      calls ≤ r.calls ∧ (∀ c, r = .succeeded c → calls + 1 ≤ c) := by
  intro fuel
  induction fuel with
  | zero => intro i calls r h; simp [V2.waitLoop] at h
  | succ n ih =>
    intro i calls r h
    simp [V2.waitLoop] at h
    by_cases hr : ready i = true <;> simp [hr] at h
    · cases h; exact ⟨Nat.le_refl _, by intro c hc; cases hc⟩
    · by_cases hf : f i = true <;> simp [hf] at h
      · cases h
        refine ⟨Nat.le_succ _, ?_⟩
        intro c hc; cases hc; exact Nat.le_refl _
      · have := ih _ _ _ h
        exact ⟨Nat.le_trans (Nat.le_succ _) this.1,
          fun c hc => Nat.le_trans (Nat.succ_le_succ (Nat.le_succ _)) ((this.2 c hc).trans (Nat.le_refl _))⟩

/-- Auxiliary: if the predicate never answers true, a terminating run of
the polling loop ends on the timeout branch. -/
theorem waitLoop_timedOut_of_false (ready f : Nat → Bool) (hf : ∀ j, f j = false) :
    ∀ fuel i calls r, V2.waitLoop ready f fuel i calls = some r → ∃ c, r = .timedOut c := by
  intro fuel
  induction fuel with
  | zero => intro i calls r h; simp [V2.waitLoop] at h
  | succ n ih =>
    intro i calls r h
    simp [V2.waitLoop, hf] at h
    by_cases hr : ready i = true <;> simp [hr] at h
    · exact ⟨_, h.symm⟩
    · exact ih _ _ _ h

/-- C6 (amended): provided the timeout channel is not yet ready at the
first poll, every terminating `WaitForTrue` run invokes the predicate at
least once; if the predicate never answers true the run reports exactly one
failure; and if it answers true at its first invocation the run succeeds
after that single call with no failure. -/
theorem waitForTrue_amended (is : V2.Is) (timeout : Nat) (ready f : Nat → Bool) (fuel : Nat)
    (r : V2.WaitResult) (evs : List FailEvent)
    (h0 : ready 0 = false)
    (hrun : V2.WaitForTrue is timeout ready f fuel = some (r, evs)) :
    1 ≤ r.calls ∧ ((∀ i, f i = false) → evs.length = 1) ∧
    (f 0 = true → r = .succeeded 1 ∧ evs = []) := by
  cases hw : V2.waitLoop ready f fuel 0 0 with
  | none => simp [V2.WaitForTrue, hw] at hrun
  | some r' =>
    rw [V2.WaitForTrue, hw] at hrun
    cases r' with
    | timedOut c =>
      simp at hrun
      obtain ⟨hr, hevs⟩ := hrun
      cases fuel with
      | zero => simp [V2.waitLoop] at hw
      | succ n =>
        simp only [V2.waitLoop, h0, Bool.false_eq_true, if_false] at hw
        cases hf0 : f 0 with
        | true =>
          rw [hf0] at hw
          simp at hw
        | false =>
          rw [hf0] at hw
          simp only [Bool.false_eq_true, if_false] at hw
          have h1 : 1 ≤ c := (waitLoop_calls ready f n 1 1 _ hw).1
          subst hr; subst hevs
          exact ⟨h1, fun _ => rfl, fun hft => absurd hft (by simp [hf0])⟩
    | succeeded c =>
      simp at hrun
      obtain ⟨hr, hevs⟩ := hrun
      cases fuel with
      | zero => simp [V2.waitLoop] at hw
      | succ n =>
        have hcalls := (waitLoop_calls ready f (n + 1) 0 0 _ hw).2 c rfl
        subst hr; subst hevs
        refine ⟨hcalls, ?_, ?_⟩
        · intro hf
          obtain ⟨c', hc'⟩ := waitLoop_timedOut_of_false ready f hf (n + 1) 0 0 _ hw
          cases hc'
        · intro hft
          simp only [V2.waitLoop, h0, Bool.false_eq_true, if_false, hft, if_true] at hw
          simp at hw
          cases hw
          exact ⟨rfl, rfl⟩

/-- C6 (witness): a run whose timeout channel becomes ready at the third
poll while the predicate always answers false: two predicate calls, then
exactly one failure. -/
theorem waitForTrue_amended_witness :
    (fun i => decide (2 ≤ i)) 0 = false ∧
    1 ≤ (V2.WaitResult.timedOut 2).calls ∧
    [V2.failDefault (V2.New 0) "function did not return true within the timeout of %v"
      [FArg.dur 200]].length = 1 := by
  have h := waitForTrue_amended (V2.New 0) 200 (fun i => decide (2 ≤ i)) (fun _ => false) 5
      (V2.WaitResult.timedOut 2)
      [V2.failDefault (V2.New 0) "function did not return true within the timeout of %v"
        [FArg.dur 200]]
      rfl rfl
  exact ⟨rfl, h.1, h.2.1 (fun i => rfl)⟩

/-- C7 (code bug evaluation): calling `Contains` with the absence value nil
as the container reaches `reflect.TypeOf(nil).Kind()` inside `isString` and
panics, instead of dispatching an argument-type failure. -/
theorem contains_nil_container_panics :
    V2.Contains (V2.New 0) (fun _ _ => false) GoVal.vNilIface (.vString "x") = .error .nilTypeKind ∧
    V2.Contains (V2.New 0) (fun _ _ => false) (.vString "hello") GoVal.vNilIface = .error .nilTypeKind :=
  ⟨rfl, rfl⟩

/-- C8 (counterexample): an empty but non-nil slice is zero-valued yet not
nil-like, so the classifiers do not both return true on every empty
sequence. -/
theorem classifiers_empty_slice_counterexample :
    isZero (GoVal.vSlice .tInt (some [])) = true ∧ isNil (GoVal.vSlice .tInt (some [])) = false :=
  ⟨rfl, rfl⟩

/-- C8 (amended): the classifiers both return true on nil sequences,
mappings and channels; on every empty-but-non-nil container — slice, map,
or channel with zero buffered elements — `isZero` is true while `isNil` is
false; and on every non-reference scalar of the universe (int, int32, bool,
string) `isZero` holds exactly at the type's zero value while `isNil` is
always false. -/
theorem classifiers_nil_empty_amended (e k v : GoTy) (i : Nat) (n : Int) (b : Bool) (s : String) :
    isNil (GoVal.vSlice e none) = true ∧ isZero (GoVal.vSlice e none) = true ∧
    isNil (GoVal.vMap k v none) = true ∧ isZero (GoVal.vMap k v none) = true ∧
    isNil (GoVal.vChan e none) = true ∧ isZero (GoVal.vChan e none) = true ∧
    isNil (GoVal.vSlice e (some [])) = false ∧ isZero (GoVal.vSlice e (some [])) = true ∧
    isNil (GoVal.vMap k v (some [])) = false ∧ isZero (GoVal.vMap k v (some [])) = true ∧
    isNil (GoVal.vChan e (some (i, 0))) = false ∧ isZero (GoVal.vChan e (some (i, 0))) = true ∧
    isZero (GoVal.vInt n) = (n == 0) ∧ isNil (GoVal.vInt n) = false ∧
    isZero (GoVal.vInt32 n) = (n == 0) ∧ isNil (GoVal.vInt32 n) = false ∧
    isZero (GoVal.vBool b) = (b == false) ∧ isNil (GoVal.vBool b) = false ∧
    isZero (GoVal.vString s) = (s == "") ∧ isNil (GoVal.vString s) = false :=
  ⟨rfl, rfl, rfl, rfl, rfl, rfl, rfl, rfl, rfl, rfl, rfl, rfl, rfl, rfl, rfl, rfl, rfl, rfl,
    rfl, rfl⟩

/-- Auxiliary: `runChecks` threads the failure flag (set iff any check in
the batch fails), preserves strictness, emits one event per failing check,
and stamps every event with the running asserter's strictness. -/
theorem runChecks_spec (a : V3.Asserter) (l : List (Option (String × List FArg))) :
    (V3.runChecks a l).1.failed = (a.failed || l.any Option.isSome) ∧
    (V3.runChecks a l).1.strict = a.strict ∧
    (V3.runChecks a l).2.length = (l.filter Option.isSome).length ∧
    (V3.runChecks a l).2.all (fun ev => ev.fatal == a.strict) = true := by
  induction l generalizing a with
  | nil => simp [V3.runChecks]
  | cons c rest ih =>
    cases c with
    | none => simpa [V3.runChecks] using ih a
    | some p =>
      obtain ⟨f, args⟩ := p
      have h := ih { a with failed := true }
      simp [V3.runChecks, V3.failDefault, apply_ite] at h ⊢
      exact ⟨h.1, h.2.1, h.2.2.1, h.2.2.2⟩

/-- C9: the `Lax` scope runs its checks on a child that is non-strict with
a fresh failed flag; each failing sub-check produces one non-fatal event;
and afterwards the parent receives exactly one aggregate failure — at the
parent's strictness — iff at least one check failed, the parent being left
untouched otherwise. -/
theorem lax_scope_single_aggregate_failure (self : V3.Asserter)
    (checks : List (Option (String × List FArg))) :
    (V3.laxChild self).strict = false ∧ (V3.laxChild self).failed = false ∧
    (V3.runChecks (V3.laxChild self) checks).2.all (fun ev => ev.fatal == false) = true ∧
    (V3.runChecks (V3.laxChild self) checks).2.length = (checks.filter Option.isSome).length ∧
    (V3.Lax self checks).2 = (V3.runChecks (V3.laxChild self) checks).2 ++
      (if checks.any Option.isSome
       then [(V3.failDefault self "at least one assertion in the Lax function failed" []).2]
       else []) ∧
    (V3.failDefault self "at least one assertion in the Lax function failed" []).2.fatal = self.strict ∧
    (V3.Lax self checks).1 = (if checks.any Option.isSome
       then (V3.failDefault self "at least one assertion in the Lax function failed" []).1
       else self) := by
  have h := runChecks_spec (V3.laxChild self) checks
  have hfailed : (V3.runChecks (V3.laxChild self) checks).1.failed = checks.any Option.isSome := by
    simpa [V3.laxChild] using h.1
  have hall : (V3.runChecks (V3.laxChild self) checks).2.all (fun ev => ev.fatal == false) = true := by
    simpa [V3.laxChild] using h.2.2.2
  refine ⟨rfl, rfl, hall, h.2.2.1, ?_, ?_, ?_⟩
  · cases hrc : V3.runChecks (V3.laxChild self) checks with
    | mk child evs =>
      rw [hrc] at hfailed
      simp only [] at hfailed
      by_cases hany : checks.any Option.isSome = true <;>
        simp [V3.Lax, hrc, hfailed, hany]
  · simp [V3.failDefault, apply_ite]
  · cases hrc : V3.runChecks (V3.laxChild self) checks with
    | mk child evs =>
      rw [hrc] at hfailed
      simp only [] at hfailed
      by_cases hany : checks.any Option.isSome = true <;>
        simp [V3.Lax, hrc, hfailed, hany]

/-- C10: with an empty candidate list, `OneOf` always reports exactly one
failure and returns false, while `NotOneOf` succeeds with no failure. -/
theorem oneOf_notOneOf_empty_candidates (is : V2.Is) (eqH : Nat → GoVal → Bool) (a : GoVal) :
    (V2.OneOf is eqH a []).map (fun p => (p.1, p.2.length)) = .ok (false, 1) ∧
    V2.NotOneOf is eqH a [] = .ok (true, []) :=
  ⟨rfl, rfl⟩
